import Mathlib

/-!
# Drive library constants (`include/drive.h`)

A shallow embedding of the configuration header of the two-motor drive
library.  Object-like macros become constants; macros whose expansion is a
`double` expression are read as exact rationals, macros whose expansion is an
`int` expression are read as integers with C semantics (32-bit wrap-around,
division truncating toward zero).
-/

namespace Drive

/-! ## Constants of the header -/

/-- Header line 13: `#define PI 3.1415926539`. -/
def PI : ℚ := 3.1415926539

/-- Header line 16: `#define MAX_SPEED 1500`. -/
def MAX_SPEED : Int := 1500

/-- Header line 25: port of the left drive motor. -/
def MOT_LEFT : Int := 1

/-- Header line 26: port of the right drive motor. -/
def MOT_RIGHT : Int := 0

/-- Header line 27: `#define WHEEL_DIAMETER 5.5`, a `double` literal. -/
def WHEEL_DIAMETER : ℚ := 5.5

/-- Header line 28: `#define ROBOT_DIAMETER 19`, an `int` literal. -/
def ROBOT_DIAMETER : Int := 19

/-- Header line 29: `#define BEMFS_PER_ROTATION 1500`, an `int` literal. -/
def BEMFS_PER_ROTATION : Int := 1500

/-- Header line 32: left forward speed. -/
def SPD_L_F : Int := 1500

/-- Header line 33: right forward speed. -/
def SPD_R_F : Int := 1450

/-- Header line 34: left backward speed. -/
def SPD_L_B : Int := 1500

/-- Header line 35: right backward speed. -/
def SPD_R_B : Int := 1410

/-! ## Derived macros -/

/-- Header line 19: `(BEMFS_PER_ROTATION / (PI * WHEEL_DIAMETER))`.  The divisor
is a `double`, so the `int` numerator is converted before dividing. -/
def CM_TO_BEMF : ℚ := (BEMFS_PER_ROTATION : ℚ) / (PI * WHEEL_DIAMETER)

/-- Header line 20: `((PI * WHEEL_DIAMETER) / BEMFS_PER_ROTATION)`. -/
def BEMF_TO_CM : ℚ := (PI * WHEEL_DIAMETER) / (BEMFS_PER_ROTATION : ℚ)

/-- Value of a mathematical integer stored in a 32-bit signed `int`. -/
def wrapInt32 (x : Int) : Int := (x + 2 ^ 31) % 2 ^ 32 - 2 ^ 31

/-- Shape shared by header lines 21 and 22, `((a + b) / 2)` on two `int`
operands: 32-bit addition followed by division truncating toward zero. -/
def halfSum (a b : Int) : Int := Int.tdiv (wrapInt32 (a + b)) 2

/-- Header line 21: `((SPD_L_B + SPD_R_F) / 2)`. -/
def SPD_L_TURN : Int := halfSum SPD_L_B SPD_R_F

/-- Header line 22: `((SPD_R_B + SPD_L_F) / 2)`. -/
def SPD_R_TURN : Int := halfSum SPD_R_B SPD_L_F

/-! ## Turn kinematics

The header only declares `right`, `right_speed`, `left` and `left_speed`
(lines 70 to 102); their bodies are in a translation unit that is not part of
the sources at hand. -/

/-- Modelled from the spec: the arc computation inside the turn routines
(`right`, `right_speed`, `left`, `left_speed`), whose bodies are missing.  For a
turn of `degrees` about a point `radius` cm from the robot centre the outer
wheel travels an arc proportional to `radius + track_width/2` and the inner
wheel one proportional to `radius - track_width/2`, both scaled by
`degrees/360 * 2π`.  The result is `(outer_arc_cm, inner_arc_cm)`. -/
def turn_wheel_arcs (degrees : Int) (radius : ℚ) : ℚ × ℚ :=
  ((degrees : ℚ) / 360 * (2 * PI) * (radius + (ROBOT_DIAMETER : ℚ) / 2),
   (degrees : ℚ) / 360 * (2 * PI) * (radius - (ROBOT_DIAMETER : ℚ) / 2))

/-- Signed distance, in centimetres, each drive wheel has to cover; positive
is forward. -/
structure WheelArcs where
  left_arc : ℚ
  right_arc : ℚ
  deriving DecidableEq, Repr

/-- Modelled from the spec: the wheel targets of `right(degrees, radius)`,
whose body is missing.  For a right turn the right wheel is the inner wheel
and the left wheel the outer one. -/
def right (degrees : Int) (radius : ℚ) : WheelArcs :=
  { left_arc := (turn_wheel_arcs degrees radius).1
    right_arc := (turn_wheel_arcs degrees radius).2 }

/-- Modelled from the spec: the wheel targets of `left(degrees, radius)`,
whose body is missing.  Symmetric to `right`: the left wheel is inner. -/
def left (degrees : Int) (radius : ℚ) : WheelArcs :=
  { left_arc := (turn_wheel_arcs degrees radius).2
    right_arc := (turn_wheel_arcs degrees radius).1 }

/-! ## Helper lemmas -/

theorem PI_pos : 0 < PI := by norm_num [PI]

theorem circumference_pos : 0 < PI * WHEEL_DIAMETER := by
  norm_num [PI, WHEEL_DIAMETER]

theorem ticks_cast_pos : (0 : ℚ) < (BEMFS_PER_ROTATION : ℚ) := by
  norm_num [BEMFS_PER_ROTATION]

theorem factors_mul : CM_TO_BEMF * BEMF_TO_CM = 1 := by
  have h1 : PI * WHEEL_DIAMETER ≠ 0 := ne_of_gt circumference_pos
  have h2 : (BEMFS_PER_ROTATION : ℚ) ≠ 0 := ne_of_gt ticks_cast_pos
  unfold CM_TO_BEMF BEMF_TO_CM
  field_simp

theorem BEMF_TO_CM_pos : 0 < BEMF_TO_CM :=
  div_pos circumference_pos ticks_cast_pos

theorem CM_TO_BEMF_pos : 0 < CM_TO_BEMF :=
  div_pos ticks_cast_pos circumference_pos

/-- Rounding to the nearest integer (Mathlib `round`) lands within half a
tick of the exact tick count. -/
theorem round_is_nearest (cm : ℚ) :
    |((round (cm * CM_TO_BEMF) : ℤ) : ℚ) - cm * CM_TO_BEMF| ≤ 1 / 2 := by
  rw [abs_sub_comm]
  exact abs_sub_round (cm * CM_TO_BEMF)

theorem wrapInt32_of_small (x : Int) (h0 : 0 ≤ x) (h1 : x ≤ 3000) :
    wrapInt32 x = x := by
  unfold wrapInt32
  omega

theorem halfSum_eq_ediv (a b : Int) (ha0 : 0 ≤ a) (ha1 : a ≤ 1500)
    (hb0 : 0 ≤ b) (hb1 : b ≤ 1500) : halfSum a b = (a + b) / 2 := by
  unfold halfSum
  rw [wrapInt32_of_small (a + b) (by omega) (by omega)]
  exact Int.tdiv_eq_ediv (by omega) (by decide)

/-- Relative deviation of `b / (q * w)` from `b / (p * w)`. -/
theorem rel_err_inverse_factor (b w p q : ℝ) (hb : 0 < b) (hw : 0 < w)
    (hp : 0 < p) (hq : 0 < q) :
    |b / (q * w) - b / (p * w)| / |b / (p * w)| = |p - q| / q := by
  have hT : 0 < b / (p * w) := div_pos hb (mul_pos hp hw)
  have key : b / (q * w) - b / (p * w) = (b / (p * w)) * ((p - q) / q) := by
    field_simp
    ring
  rw [key, abs_mul, mul_comm, mul_div_assoc,
    div_self (ne_of_gt (abs_pos.mpr (ne_of_gt hT))), mul_one, abs_div,
    abs_of_pos hq]

/-- Relative deviation of `(q * w) / b` from `(p * w) / b`. -/
theorem rel_err_direct_factor (b w p q : ℝ) (hb : 0 < b) (hw : 0 < w)
    (hp : 0 < p) :
    |(q * w) / b - (p * w) / b| / |(p * w) / b| = |q - p| / p := by
  have hT : 0 < (p * w) / b := div_pos (mul_pos hp hw) hb
  have key : (q * w) / b - (p * w) / b = ((p * w) / b) * ((q - p) / p) := by
    field_simp
    ring
  rw [key, abs_mul, mul_comm, mul_div_assoc,
    div_self (ne_of_gt (abs_pos.mpr (ne_of_gt hT))), mul_one, abs_div,
    abs_of_pos hp]

theorem PI_real_sub_pi_bounds :
    0 < ((PI : ℚ) : ℝ) - Real.pi ∧ ((PI : ℚ) : ℝ) - Real.pi < 1 / 10 ^ 9 := by
  have h1 := Real.pi_gt_d20
  have h2 := Real.pi_lt_d20
  have hP : ((PI : ℚ) : ℝ) = 3.1415926539 := by
    unfold PI
    norm_num
  rw [hP]
  constructor <;> norm_num at h1 h2 ⊢ <;> linarith

/-! ## Claims -/

/-- C1: the two conversion factors are exact inverses.  Read as rationals,
`CM_TO_BEMF * BEMF_TO_CM = 1`; hence converting any distance to ticks and back
returns the distance, and converting any tick count to a distance and back
returns the tick count. -/
theorem C1_factors_exact_inverses :
    CM_TO_BEMF * BEMF_TO_CM = 1 ∧
    (∀ cm : ℚ, (cm * CM_TO_BEMF) * BEMF_TO_CM = cm) ∧
    (∀ t : ℚ, (t * BEMF_TO_CM) * CM_TO_BEMF = t) := by
  refine ⟨factors_mul, ?_, ?_⟩
  · intro cm
    rw [mul_assoc, factors_mul, mul_one]
  · intro t
    rw [mul_assoc, mul_comm BEMF_TO_CM, factors_mul, mul_one]

/-- C2: round trip with tick rounding.  For every distance `cm ≥ 0`, if
`ticks` is an integer nearest to `cm * CM_TO_BEMF` (it lies within half a tick
of it, whatever the tie-breaking rule), then `ticks * BEMF_TO_CM` differs from
`cm` by at most one tick worth of distance, `BEMF_TO_CM`. -/
theorem C2_round_trip_within_one_tick (cm : ℚ) (_hcm : 0 ≤ cm) (ticks : ℤ)
    (hnear : |(ticks : ℚ) - cm * CM_TO_BEMF| ≤ 1 / 2) :
    |(ticks : ℚ) * BEMF_TO_CM - cm| ≤ BEMF_TO_CM := by
  have hpos := BEMF_TO_CM_pos
  have hback : cm = (cm * CM_TO_BEMF) * BEMF_TO_CM := by
    rw [mul_assoc, factors_mul, mul_one]
  have hfac : (ticks : ℚ) * BEMF_TO_CM - cm
      = ((ticks : ℚ) - cm * CM_TO_BEMF) * BEMF_TO_CM := by
    rw [sub_mul, ← hback]
  rw [hfac, abs_mul, abs_of_pos hpos]
  calc |(ticks : ℚ) - cm * CM_TO_BEMF| * BEMF_TO_CM
      ≤ (1 / 2) * BEMF_TO_CM := mul_le_mul_of_nonneg_right hnear (le_of_lt hpos)
    _ ≤ BEMF_TO_CM := by linarith

/-- The round-trip bound instantiated at `cm = 10`, whose nearest tick count
is 868. -/
theorem C2_round_trip_witness :
    (0 : ℚ) ≤ 10 ∧ round ((10 : ℚ) * CM_TO_BEMF) = 868 ∧
    |((868 : ℤ) : ℚ) - 10 * CM_TO_BEMF| ≤ 1 / 2 ∧
    |((868 : ℤ) : ℚ) * BEMF_TO_CM - 10| ≤ BEMF_TO_CM := by
  have hn : |((868 : ℤ) : ℚ) - 10 * CM_TO_BEMF| ≤ 1 / 2 := by
    rw [abs_le]
    constructor <;>
      norm_num [CM_TO_BEMF, PI, WHEEL_DIAMETER, BEMFS_PER_ROTATION]
  refine ⟨by norm_num, ?_, hn,
    C2_round_trip_within_one_tick 10 (by norm_num) 868 hn⟩
  rw [round_eq, Int.floor_eq_iff]
  constructor <;>
    norm_num [CM_TO_BEMF, PI, WHEEL_DIAMETER, BEMFS_PER_ROTATION]

/-- C3: with `WHEEL_DIAMETER = 5.5`, `BEMFS_PER_ROTATION = 1500` and the
header value of `PI`, the tick count for 10 cm, `10 * CM_TO_BEMF`, is within
one tick of 868.5. -/
theorem C3_ten_cm_in_ticks :
    WHEEL_DIAMETER = 5.5 ∧ BEMFS_PER_ROTATION = 1500 ∧
    |10 * CM_TO_BEMF - 868.5| < 1 := by
  refine ⟨rfl, rfl, ?_⟩
  rw [abs_lt]
  constructor <;>
    norm_num [CM_TO_BEMF, PI, WHEEL_DIAMETER, BEMFS_PER_ROTATION]

/-- C4: each of the four tuned speeds `SPD_L_F`, `SPD_R_F`, `SPD_L_B`,
`SPD_R_B` has magnitude at most `MAX_SPEED`, which is 1500. -/
theorem C4_tuned_speeds_within_max :
    MAX_SPEED = 1500 ∧ |SPD_L_F| ≤ MAX_SPEED ∧ |SPD_R_F| ≤ MAX_SPEED ∧
    |SPD_L_B| ≤ MAX_SPEED ∧ |SPD_R_B| ≤ MAX_SPEED := by
  refine ⟨rfl, ?_, ?_, ?_, ?_⟩ <;>
    norm_num [SPD_L_F, SPD_R_F, SPD_L_B, SPD_R_B, MAX_SPEED]

/-- C5: pivot-turn scenario.  With track width `ROBOT_DIAMETER = 19` and the
header value of `PI`, `right(90, 0)` asks the left wheel for an arc of
`90/360 * 2 * PI * 9.5` cm forward, which is within 0.005 cm of 14.92 cm, and
the right wheel for an arc of the same magnitude backward. -/
theorem C5_right_90_pivot :
    ROBOT_DIAMETER = 19 ∧
    (right 90 0).left_arc = 90 / 360 * 2 * PI * 9.5 ∧
    |(right 90 0).left_arc - 14.92| < 0.005 ∧
    0 < (right 90 0).left_arc ∧
    (right 90 0).right_arc = -(right 90 0).left_arc := by
  refine ⟨rfl, ?_, ?_, ?_, ?_⟩
  · norm_num [right, turn_wheel_arcs, ROBOT_DIAMETER, PI]
  · rw [abs_lt]
    constructor <;> norm_num [right, turn_wheel_arcs, ROBOT_DIAMETER, PI]
  · norm_num [right, turn_wheel_arcs, ROBOT_DIAMETER, PI]
  · norm_num [right, turn_wheel_arcs, ROBOT_DIAMETER, PI]

/-- C6: pivot boundary of the turn arcs.  A 90 degree turn at radius exactly
half the track width (`ROBOT_DIAMETER / 2 = 9.5` cm) has inner arc 0; for every
radius with `0 ≤ radius < ROBOT_DIAMETER / 2` and every positive angle the
inner arc, `degrees/360 * 2 * PI * (radius - ROBOT_DIAMETER/2)`, is strictly
negative. -/
theorem C6_pivot_boundary :
    (ROBOT_DIAMETER : ℚ) / 2 = 9.5 ∧
    (turn_wheel_arcs 90 ((ROBOT_DIAMETER : ℚ) / 2)).2 = 0 ∧
    ∀ (degrees : Int) (radius : ℚ), 0 < degrees → 0 ≤ radius →
      radius < (ROBOT_DIAMETER : ℚ) / 2 →
      (turn_wheel_arcs degrees radius).2
          = (degrees : ℚ) / 360 * 2 * PI * (radius - (ROBOT_DIAMETER : ℚ) / 2) ∧
        (turn_wheel_arcs degrees radius).2 < 0 := by
  refine ⟨by norm_num [ROBOT_DIAMETER], by simp [turn_wheel_arcs], ?_⟩
  intro degrees radius hdeg _ hlt
  constructor
  · simp only [turn_wheel_arcs]
    ring
  · have hd : (0 : ℚ) < (degrees : ℚ) := by exact_mod_cast hdeg
    have hscale : 0 < (degrees : ℚ) / 360 * (2 * PI) :=
      mul_pos (div_pos hd (by norm_num)) (mul_pos (by norm_num) PI_pos)
    exact mul_neg_of_pos_of_neg hscale (sub_neg.mpr hlt)

/-- The pivot boundary instantiated: a 45 degree turn on a 3 cm radius
reverses the inner wheel. -/
theorem C6_pivot_boundary_witness :
    (0 : Int) < 45 ∧ (0 : ℚ) ≤ 3 ∧ (3 : ℚ) < (ROBOT_DIAMETER : ℚ) / 2 ∧
    (turn_wheel_arcs 45 3).2 < 0 :=
  ⟨by decide, by norm_num, by norm_num [ROBOT_DIAMETER],
    (C6_pivot_boundary.2.2 45 3 (by decide) (by norm_num)
      (by norm_num [ROBOT_DIAMETER])).2⟩

/-- C7: robot-geometry invariant.  `WHEEL_DIAMETER`, `ROBOT_DIAMETER` and
`BEMFS_PER_ROTATION` are strictly positive, the denominators
`PI * WHEEL_DIAMETER` and `BEMFS_PER_ROTATION` of the conversion factors are
non-zero, and `CM_TO_BEMF` and `BEMF_TO_CM` are strictly positive. -/
theorem C7_geometry_positive :
    0 < WHEEL_DIAMETER ∧ 0 < ROBOT_DIAMETER ∧ 0 < BEMFS_PER_ROTATION ∧
    PI * WHEEL_DIAMETER ≠ 0 ∧ (BEMFS_PER_ROTATION : ℚ) ≠ 0 ∧
    0 < CM_TO_BEMF ∧ 0 < BEMF_TO_CM :=
  ⟨by norm_num [WHEEL_DIAMETER], by decide, by decide,
    ne_of_gt circumference_pos, ne_of_gt ticks_cast_pos,
    CM_TO_BEMF_pos, BEMF_TO_CM_pos⟩

/-- C8: the derived turn speeds stay within the hardware limit.  For all
integer tuning values in `[0, MAX_SPEED]` the macro shape `(a + b) / 2` (32-bit
addition, truncating division) lies between the smaller and the larger operand
and hence in `[0, MAX_SPEED]`; with the configured values `SPD_L_TURN` is 1475
and `SPD_R_TURN` is 1455. -/
theorem C8_turn_speeds_within_limit :
    (∀ a b : Int, 0 ≤ a → a ≤ MAX_SPEED → 0 ≤ b → b ≤ MAX_SPEED →
      min a b ≤ halfSum a b ∧ halfSum a b ≤ max a b ∧
        0 ≤ halfSum a b ∧ halfSum a b ≤ MAX_SPEED) ∧
    SPD_L_TURN = 1475 ∧ SPD_R_TURN = 1455 := by
  refine ⟨?_, by decide, by decide⟩
  intro a b ha0 ha1 hb0 hb1
  have hM : MAX_SPEED = 1500 := rfl
  rw [hM] at ha1 hb1 ⊢
  rw [halfSum_eq_ediv a b ha0 ha1 hb0 hb1]
  refine ⟨?_, ?_, ?_, ?_⟩
  · rcases le_total a b with h | h
    · rw [min_eq_left h]
      omega
    · rw [min_eq_right h]
      omega
  · rcases le_total a b with h | h
    · rw [max_eq_right h]
      omega
    · rw [max_eq_left h]
      omega
  · omega
  · omega

/-- The turn-speed bound instantiated at the configured pair
`SPD_L_B = 1500`, `SPD_R_F = 1450`. -/
theorem C8_turn_speeds_witness :
    (0 : Int) ≤ 1500 ∧ (1500 : Int) ≤ MAX_SPEED ∧ (0 : Int) ≤ 1450 ∧
    (1450 : Int) ≤ MAX_SPEED ∧ halfSum 1500 1450 = 1475 ∧
    min (1500 : Int) 1450 ≤ halfSum 1500 1450 ∧
    halfSum 1500 1450 ≤ max (1500 : Int) 1450 ∧
    0 ≤ halfSum 1500 1450 ∧ halfSum 1500 1450 ≤ MAX_SPEED :=
  ⟨by decide, by decide, by decide, by decide, by decide,
    C8_turn_speeds_within_limit.1 1500 1450 (by decide) (by decide)
      (by decide) (by decide)⟩

/-- C9: the header constant `PI = 3.1415926539` is within `10^-9` of the
mathematical constant π, and each conversion factor built from it has relative
error below `10^-9` with respect to the same factor computed with π. -/
theorem C9_PI_accuracy :
    |((PI : ℚ) : ℝ) - Real.pi| < 1 / 10 ^ 9 ∧
    |((CM_TO_BEMF : ℚ) : ℝ)
        - (BEMFS_PER_ROTATION : ℝ) / (Real.pi * ((WHEEL_DIAMETER : ℚ) : ℝ))|
      / |(BEMFS_PER_ROTATION : ℝ) / (Real.pi * ((WHEEL_DIAMETER : ℚ) : ℝ))|
      < 1 / 10 ^ 9 ∧
    |((BEMF_TO_CM : ℚ) : ℝ)
        - (Real.pi * ((WHEEL_DIAMETER : ℚ) : ℝ)) / (BEMFS_PER_ROTATION : ℝ)|
      / |(Real.pi * ((WHEEL_DIAMETER : ℚ) : ℝ)) / (BEMFS_PER_ROTATION : ℝ)|
      < 1 / 10 ^ 9 := by
  obtain ⟨hlo, hhi⟩ := PI_real_sub_pi_bounds
  have hpi : 0 < Real.pi := Real.pi_pos
  have hpi3 : 3 < Real.pi := Real.pi_gt_three
  have hP : (0 : ℝ) < ((PI : ℚ) : ℝ) := by exact_mod_cast PI_pos
  have hB : (0 : ℝ) < (BEMFS_PER_ROTATION : ℝ) := by
    norm_num [BEMFS_PER_ROTATION]
  have hW : (0 : ℝ) < ((WHEEL_DIAMETER : ℚ) : ℝ) := by
    norm_num [WHEEL_DIAMETER]
  have habs : |((PI : ℚ) : ℝ) - Real.pi| < 1 / 10 ^ 9 := by
    rw [abs_of_pos hlo]
    exact hhi
  have hC : ((CM_TO_BEMF : ℚ) : ℝ)
      = (BEMFS_PER_ROTATION : ℝ) / (((PI : ℚ) : ℝ) * ((WHEEL_DIAMETER : ℚ) : ℝ)) := by
    unfold CM_TO_BEMF
    push_cast
    rfl
  have hD : ((BEMF_TO_CM : ℚ) : ℝ)
      = (((PI : ℚ) : ℝ) * ((WHEEL_DIAMETER : ℚ) : ℝ)) / (BEMFS_PER_ROTATION : ℝ) := by
    unfold BEMF_TO_CM
    push_cast
    rfl
  refine ⟨habs, ?_, ?_⟩
  · rw [hC, rel_err_inverse_factor _ _ _ _ hB hW hpi hP, abs_sub_comm,
      div_lt_iff₀ hP]
    calc |((PI : ℚ) : ℝ) - Real.pi| < 1 / 10 ^ 9 := habs
      _ ≤ 1 / 10 ^ 9 * ((PI : ℚ) : ℝ) := by nlinarith
  · rw [hD, rel_err_direct_factor _ _ _ _ hB hW hpi, div_lt_iff₀ hpi]
    calc |((PI : ℚ) : ℝ) - Real.pi| < 1 / 10 ^ 9 := habs
      _ ≤ 1 / 10 ^ 9 * Real.pi := by nlinarith

end Drive
